import Mathlib

/-!
Shallow embedding of the MCQ quiz session engine of
`src/components/LessonView.tsx` (the MCQ branch, lines 211-507), together
with theorems checking the specification's claims about it.

JavaScript values are modelled as follows: numbers that are always
non-negative integers in the source become `Nat`; a JS object used as a
map from integer keys to option indices (`mcqState`) becomes an
association list `List (Nat × Nat)` whose keys are unique (JS object keys
are unique by construction); `undefined`/absent becomes `Option.none`;
a thrown exception surfaces as `Except.error` or `Option.none` depending
on context, as documented at each definition.
-/

namespace LessonView

/-- The `MCQItem` record from `../types` as used by the engine: the engine
reads `options`, `correctAnswer` (an index into `options`) and
`explanation`; all fields are treated as read-only. -/
structure MCQItem where
  question : String
  options : List String
  correctAnswer : Nat
  explanation : Option String
deriving DecidableEq

/-- Source line 56: `const BATCH_SIZE = 50;` -/
def BATCH_SIZE : Nat := 50

/-- Lookup of an integer key in a JS object modelled as an association
list: `m[k]`, returning `none` for `undefined`. -/
def lookupA (k : Nat) : List (Nat × Nat) → Option Nat
  | [] => none
  | (k', v) :: rest => if k' = k then some v else lookupA k rest

/-- The React state of the MCQ branch (source lines 46-55): `mcqState`
(answers map), `showResults`, `localMcqData` (the session order),
`showResumePrompt`, `analysisUnlocked`, `showSubmitModal`, `sessionTime`
and `batchIndex`. -/
structure MCQState where
  mcqState : List (Nat × Nat)
  showResults : Bool
  localMcqData : List MCQItem
  showResumePrompt : Bool
  analysisUnlocked : Bool
  showSubmitModal : Bool
  sessionTime : Nat
  batchIndex : Nat
deriving DecidableEq

/-- The initial values of all `useState` hooks (source lines 46-55). -/
def initialState : MCQState :=
  { mcqState := []
    showResults := false
    localMcqData := []
    showResumePrompt := false
    analysisUnlocked := false
    showSubmitModal := false
    sessionTime := 0
    batchIndex := 0 }

/-- The session modes of the spec that are distinguishable in the
component state: `ResumePending` is `showResumePrompt = true`,
`Submitted` (which subsumes the spec's Analysis and History modes) is
`showResults = true`, and `Active` is the remaining answering state. -/
inductive SessionMode where
  | ResumePending
  | Active
  | Submitted
deriving DecidableEq

/-- Mode of a component state, per the mapping above.  The resume-prompt
overlay covers the whole screen, so it takes precedence. -/
def modeOf (s : MCQState) : SessionMode :=
  if s.showResumePrompt then SessionMode.ResumePending
  else if s.showResults then SessionMode.Submitted
  else SessionMode.Active

/-- JS `Array.prototype.slice(s, e)` for `0 ≤ s ≤ e`: the elements at
indices `[s, e)`, clamped to the array length. -/
def jsSlice (l : List MCQItem) (s e : Nat) : List MCQItem :=
  (l.drop s).take (e - s)

/-- Source line 296:
`localMcqData.slice(batchIndex * BATCH_SIZE, (batchIndex + 1) * BATCH_SIZE)`. -/
def currentBatchData (order : List MCQItem) (batchIndex : Nat) : List MCQItem :=
  jsSlice order (batchIndex * BATCH_SIZE) ((batchIndex + 1) * BATCH_SIZE)

/-- Source line 297:
`(batchIndex + 1) * BATCH_SIZE < localMcqData.length`. -/
def hasMore (order : List MCQItem) (batchIndex : Nat) : Bool :=
  decide ((batchIndex + 1) * BATCH_SIZE < order.length)

/-- Source lines 300-303: the score reduce.  Each step evaluates
`localMcqData[qIdx].correctAnswer`; when `qIdx` is out of bounds the
indexed element is `undefined` and the property access throws a
`TypeError`, modelled here by the whole computation returning `none`. -/
def score (m : List (Nat × Nat)) (order : List MCQItem) : Option Nat :=
  m.foldl
    (fun acc p =>
      acc.bind (fun a =>
        (order.get? p.1).map
          (fun q => a + if p.2 = q.correctAnswer then 1 else 0)))
    (some 0)

/-- Source line 305: `Object.keys(mcqState).length`. -/
def attemptedCount (m : List (Nat × Nat)) : Nat := m.length

/-- Source line 306: `Math.min(50, localMcqData.length)`. -/
def minRequired (order : List MCQItem) : Nat := min 50 order.length

/-- Source line 307: `attemptedCount >= minRequired`. -/
def canSubmit (m : List (Nat × Nat)) (order : List MCQItem) : Bool :=
  decide (attemptedCount m ≥ minRequired order)

/-- Spec-side scoring ("count of positions where the stored answer equals
`order[position].correctAnswer`"), written as the spec words it: filter
the answered positions by correctness and count. -/
def specScore (m : List (Nat × Nat)) (order : List MCQItem) : Nat :=
  (m.filter
    (fun p =>
      match order.get? p.1 with
      | some q => decide (p.2 = q.correctAnswer)
      | none => false)).length

/-- The set of positions holding an answer, for the spec-side reading of
`attempted` as "count of positions with a non-absent answer". -/
def answeredSet (m : List (Nat × Nat)) : Finset Nat :=
  (m.map Prod.fst).toFinset

/-- The persisted progress record (source lines 245-249): the object
`JSON.stringify` serializes is built from `mcqState`, `batchIndex` and
`localMcqData`.  A deserialized record may be any JSON value, so each
field is optional: `none` models a missing (`undefined`) property. -/
structure ProgressRecord where
  mcqState : Option (List (Nat × Nat))
  batchIndex : Option Nat
  localMcqData : Option (List MCQItem)
deriving DecidableEq

/-- A raw value stored in `localStorage`, classified by what
`JSON.parse` does with it: `malformed` strings make `JSON.parse` throw a
`SyntaxError`; the string `"null"` parses to `null`, on which any
property access throws a `TypeError`; every other parse result is a JSON
value whose (possibly missing) relevant properties are captured by a
`ProgressRecord`. -/
inductive StoredVal where
  | malformed (raw : String)
  | jsonNull
  | record (r : ProgressRecord)
deriving DecidableEq

/-- The browser `localStorage`, modelled as an association list from
string keys to stored values. -/
abbrev Store := List (String × StoredVal)

/-- `localStorage.getItem` on the modelled store. -/
def getStore (k : String) : Store → Option StoredVal
  | [] => none
  | (k', v) :: rest => if k' = k then some v else getStore k rest

/-- `localStorage.removeItem` on the modelled store. -/
def removeStore (k : String) (st : Store) : Store :=
  st.filter (fun p => !(p.1 = k : Bool))

/-- `localStorage.setItem` on the modelled store. -/
def setStore (k : String) (v : StoredVal) (st : Store) : Store :=
  (k, v) :: removeStore k st

/-- The progress key of a chapter (source lines 228, 244, 255, ...):
the fixed prefix `nst_mcq_progress_` followed by the chapter id. -/
def progressKey (chapterId : String) : String :=
  "nst_mcq_progress_" ++ chapterId

/-- One insertion step of the comparator-driven shuffle.  The JS source
shuffles with `[...data].sort(() => Math.random() - 0.5)`: a stable sort
whose comparator is a stream of independent coin flips.  The sort
algorithm is implementation-defined, so the embedding fixes one stable
comparison sort (insertion sort) and feeds it the comparator's flips
`r : Nat → Bool`; the observable contract — the output is a permutation
of the input — is independent of this choice. -/
def insertRand (r : Nat → Bool) (a : MCQItem) : Nat → List MCQItem → List MCQItem
  | _, [] => [a]
  | k, x :: xs => if r k then a :: x :: xs else x :: insertRand r a (k + 1) xs

/-- The comparator-driven shuffle: see `insertRand`.  `r n` is the flip
stream used while inserting the element whose tail has length `n`. -/
def sortRand (r : Nat → Nat → Bool) : List MCQItem → List MCQItem
  | [] => []
  | x :: xs => insertRand (r xs.length) x 0 (sortRand r xs)

/-- The resume/shuffle initialization effect (source lines 214-239).
Case 1 (`content.userAnswers` present): restore historical answers and
enter analysis.  Case 2 (a stored record exists under the chapter's
progress key): show the resume prompt and pre-shuffle.  Case 3: fresh
start with a shuffled order.  `r` is the random stream of the shuffle. -/
def initSession (userAnswers : Option (List (Nat × Nat))) (mcqData : List MCQItem)
    (chapterId : String) (store : Store) (r : Nat → Nat → Bool) : MCQState :=
  match userAnswers with
  | some ua =>
      { initialState with
          mcqState := ua
          showResults := true
          analysisUnlocked := true
          localMcqData := mcqData }
  | none =>
      if (getStore (progressKey chapterId) store).isSome then
        { initialState with
            showResumePrompt := true
            localMcqData := sortRand r mcqData }
      else
        { initialState with localMcqData := sortRand r mcqData }

/-- The guard of the MCQ branch (source line 211):
`(content?.type === 'MCQ_ANALYSIS' || content?.type === 'MCQ_SIMPLE') && content.mcqData`.
A JS array is truthy whether or not it is empty, so the `mcqData` test
only excludes `undefined`/`null`, i.e. `Option.isSome`. -/
def mcqBranch (contentType : String) (mcqData : Option (List MCQItem)) : Bool :=
  (contentType == "MCQ_ANALYSIS" || contentType == "MCQ_SIMPLE") && mcqData.isSome

/-- `handleResume` (source lines 254-264).  `JSON.parse(saved)` is not
wrapped in any try/catch, so a stored value that fails to parse throws a
`SyntaxError` out of the handler, and a stored `"null"` throws a
`TypeError` at `parsed.mcqState`; both surface as `Except.error`.  On a
successful parse the fields are restored with the source's fallbacks:
`parsed.mcqState || {}`, `parsed.batchIndex || 0`, and `localMcqData`
only if present. -/
def handleResume (chapterId : String) (store : Store) (s : MCQState) :
    Except String MCQState :=
  match getStore (progressKey chapterId) store with
  | none => Except.ok { s with showResumePrompt := false }
  | some (StoredVal.malformed _) => Except.error "SyntaxError"
  | some StoredVal.jsonNull => Except.error "TypeError"
  | some (StoredVal.record r) =>
      Except.ok
        { s with
            mcqState := r.mcqState.getD []
            batchIndex := r.batchIndex.getD 0
            localMcqData := r.localMcqData.getD s.localMcqData
            showResumePrompt := false }

/-- `handleRestart` (source lines 266-275): clear the stored record,
reset answers and batch index, reshuffle, close the prompt, and leave
analysis state. -/
def handleRestart (rnd : Nat → Nat → Bool) (chapterId : String)
    (mcqData : Option (List MCQItem)) (s : MCQState) (store : Store) :
    MCQState × Store :=
  ({ s with
      mcqState := []
      batchIndex := 0
      localMcqData := sortRand rnd (mcqData.getD [])
      showResumePrompt := false
      analysisUnlocked := false
      showResults := false },
   removeStore (progressKey chapterId) store)

/-- The `onConfirm` body of `handleRecreate` (source lines 282-292), run
after the user confirms the destructive restart: reshuffle
`content.mcqData || []`, clear answers, reset the batch index, leave
analysis state, and remove the stored record. -/
def handleRecreate (rnd : Nat → Nat → Bool) (chapterId : String)
    (mcqData : Option (List MCQItem)) (s : MCQState) (store : Store) :
    MCQState × Store :=
  ({ s with
      localMcqData := sortRand rnd (mcqData.getD [])
      mcqState := []
      batchIndex := 0
      showResults := false
      analysisUnlocked := false },
   removeStore (progressKey chapterId) store)

/-- The auto-save effect (source lines 242-251): whenever the tracked
state changes, if `!showResults && Object.keys(mcqState).length > 0`,
serialize `{ mcqState, batchIndex, localMcqData }` under the chapter's
progress key; otherwise write nothing.  Returns the record written, if
any. -/
def autoSave (s : MCQState) : Option ProgressRecord :=
  if s.showResults = false ∧ s.mcqState ≠ [] then
    some
      { mcqState := some s.mcqState
        batchIndex := some s.batchIndex
        localMcqData := some s.localMcqData }
  else none

/-- The completion event handed to the host via `onMCQComplete`
(source line 313): `(score, mcqState, localMcqData, sessionTime)`. -/
structure CompletionEvent where
  score : Nat
  answers : List (Nat × Nat)
  order : List MCQItem
  elapsedSeconds : Nat
deriving DecidableEq

/-- `handleConfirmSubmit` (source lines 309-314): close the submit
modal, remove the stored record, and — when the host supplied an
`onMCQComplete` callback — call it once with the rendered `score`, the
answers map, the session order and the elapsed seconds.  `sc` is the
score value computed by the enclosing render (the handler closes over
it).  Note the handler does not touch `showResults`. -/
def handleConfirmSubmit (hasCallback : Bool) (chapterId : String) (sc : Nat)
    (s : MCQState) (store : Store) : MCQState × Store × List CompletionEvent :=
  ({ s with showSubmitModal := false },
   removeStore (progressKey chapterId) store,
   if hasCallback then
     [{ score := sc
        answers := s.mcqState
        order := s.localMcqData
        elapsedSeconds := s.sessionTime }]
   else [])

/-- `isAnswered` for a position (source line 392):
`userAnswer !== undefined && userAnswer !== null`.  Option values in the
answers map are numbers, so this is definedness of the lookup. -/
def isAnswered (s : MCQState) (idx : Nat) : Bool :=
  (lookupA idx s.mcqState).isSome

/-- The Answer operation: the option button (source lines 419-424) has
`disabled={isAnswered || showResults}` and
`onClick={() => setMcqState(prev => ({ ...prev, [idx]: oIdx }))}`.
A disabled button never fires, and while the resume prompt (line 323,
`absolute inset-0 z-50`) or the submit modal (line 341,
`fixed inset-0 z-[100]`) is open a full-screen overlay blocks all
pointer events on the buttons, so the click is also unreachable then.
When the click does fire, the spread adds the fresh key `idx`. -/
def answerOp (idx oIdx : Nat) (s : MCQState) : MCQState :=
  if isAnswered s idx || s.showResults || s.showResumePrompt || s.showSubmitModal then
    s
  else
    { s with mcqState := s.mcqState ++ [(idx, oIdx)] }

/-- The Next button's unanswered-position scan (source line 498):
`currentBatchData.some((_, i) => mcqState[(batchIndex * BATCH_SIZE) + i] === undefined)`. -/
def pageUnanswered (s : MCQState) : Bool :=
  (List.range (currentBatchData s.localMcqData s.batchIndex).length).any
    (fun i => (lookupA (s.batchIndex * BATCH_SIZE + i) s.mcqState).isNone)

/-- Forward batch navigation: the Next button (source lines 491-504) is
rendered only when `hasMore`, is disabled when
`!showResults && currentBatchData.some(...)`, and on click increments
`batchIndex`. -/
def navNext (s : MCQState) : MCQState :=
  if hasMore s.localMcqData s.batchIndex && !(!s.showResults && pageUnanswered s) then
    { s with batchIndex := s.batchIndex + 1 }
  else s

/-- Backward batch navigation: the Prev button (source lines 461-471) is
rendered exactly when `batchIndex > 0`, is never disabled, and on click
decrements `batchIndex`. -/
def navPrev (s : MCQState) : MCQState :=
  if 0 < s.batchIndex then { s with batchIndex := s.batchIndex - 1 } else s

/-- The user-interface operations available within one session (no
restart/recreate/resume, which begin a new session).  `openSubmitModal`
is the RequestSubmit step; its handler (`handleSubmitRequest`,
referenced at source line 478) is not defined under `src/`, and is
modelled from the spec: "RequestSubmit opens a confirmation step",
i.e. it sets `showSubmitModal`.  `cancelSubmitModal` is the "Not Yet"
button (line 352) and `confirmSubmitOp` is the state part of
`handleConfirmSubmit`. -/
inductive SessionOp where
  | answer (idx oIdx : Nat)
  | next
  | prev
  | openSubmitModal
  | cancelSubmitModal
  | confirmSubmitOp
deriving DecidableEq

/-- The state transition of each within-session operation. -/
def stepOp : SessionOp → MCQState → MCQState
  | SessionOp.answer idx oIdx, s => answerOp idx oIdx s
  | SessionOp.next, s => navNext s
  | SessionOp.prev, s => navPrev s
  | SessionOp.openSubmitModal, s => { s with showSubmitModal := true }
  | SessionOp.cancelSubmitModal, s => { s with showSubmitModal := false }
  | SessionOp.confirmSubmitOp, s => { s with showSubmitModal := false }

/-- Run a sequence of within-session operations. -/
def runOps (ops : List SessionOp) (s : MCQState) : MCQState :=
  ops.foldl (fun t op => stepOp op t) s

/-- A sample question whose correct option is index 1. -/
def q0 : MCQItem :=
  { question := "Sample question A"
    options := ["opt0", "opt1", "opt2", "opt3"]
    correctAnswer := 1
    explanation := none }

/-- A sample question whose correct option is index 0. -/
def q1 : MCQItem :=
  { question := "Sample question B"
    options := ["yes", "no"]
    correctAnswer := 0
    explanation := some "sample reasoning" }

/-- A sample two-question session order. -/
def sampleOrder : List MCQItem := [q0, q1]

/-- Sample answers: position 0 answered correctly, position 1 wrongly. -/
def sampleAnswers : List (Nat × Nat) := [(0, 1), (1, 1)]

/-- A sample fully-answered Active state over `sampleOrder`. -/
def sampleState : MCQState :=
  { initialState with mcqState := sampleAnswers, localMcqData := sampleOrder }

/-- `sampleState` after entering analysis (Submitted mode). -/
def submittedState : MCQState :=
  { sampleState with showResults := true, analysisUnlocked := true }

/-- A 60-question order, large enough for two pages. -/
def bigOrder : List MCQItem := List.replicate 60 q0

/-- Answers to every position of page 0 (positions 0 to 49). -/
def bigAnswers : List (Nat × Nat) := (List.range 50).map (fun i => (i, 1))

/-- An Active state on page 0 of `bigOrder` with page 0 fully answered. -/
def bigState : MCQState :=
  { initialState with localMcqData := bigOrder, mcqState := bigAnswers }

/-- An Active state on page 0 of `bigOrder` with only position 0 answered. -/
def bigStatePartial : MCQState :=
  { initialState with localMcqData := bigOrder, mcqState := [(0, 1)] }

/-- `bigStatePartial` after entering analysis (Submitted mode). -/
def bigSubmitted : MCQState :=
  { bigStatePartial with showResults := true }

/-- `bigState` moved to batch page 1. -/
def page1State : MCQState :=
  { bigState with batchIndex := 1 }

/-- A stored record whose answers map holds the key 5 while its stored
order has a single question: a resumed record saved against a longer
question set. -/
def badRecord : ProgressRecord :=
  { mcqState := some [(5, 0)], batchIndex := some 0, localMcqData := some [q0] }

/-- A store holding `badRecord` under chapter `ch1`'s progress key. -/
def badStore : Store := [(progressKey "ch1", StoredVal.record badRecord)]

/-- A store holding a string that is not valid JSON under chapter
`ch1`'s progress key. -/
def malformedStore : Store := [(progressKey "ch1", StoredVal.malformed "not json")]

/-- The state `handleResume` restores from `badStore`: its answers map
holds the key 5 while its order has length 1. -/
def resumedBad : MCQState :=
  { initialState with
      mcqState := [(5, 0)]
      batchIndex := 0
      localMcqData := [q0]
      showResumePrompt := false }

lemma lookupA_isSome_iff (k : Nat) (m : List (Nat × Nat)) :
    (lookupA k m).isSome = true ↔ k ∈ m.map Prod.fst := by
  induction m with
  | nil => simp [lookupA]
  | cons p rest ih =>
    obtain ⟨k', v⟩ := p
    by_cases h : k' = k
    · subst h; simp [lookupA]
    · have h' : ¬ k = k' := fun hh => h hh.symm
      simp [lookupA, h, h', ih]

lemma score_foldl (order : List MCQItem) :
    ∀ (m : List (Nat × Nat)) (a : Nat), (∀ p ∈ m, p.1 < order.length) →
      m.foldl
        (fun acc p =>
          acc.bind (fun x =>
            (order.get? p.1).map
              (fun q => x + if p.2 = q.correctAnswer then 1 else 0)))
        (some a)
        = some (a + specScore m order) := by
  intro m
  induction m with
  | nil => intro a _; simp [specScore]
  | cons p rest ih =>
    intro a h
    have hp : p.1 < order.length := h p (List.mem_cons_self p rest)
    obtain ⟨q, hq⟩ : ∃ q, order.get? p.1 = some q :=
      ⟨order.get ⟨p.1, hp⟩, List.get?_eq_get hp⟩
    have hrest : ∀ x ∈ rest, x.1 < order.length := fun x hx =>
      h x (List.mem_cons_of_mem p hx)
    simp only [List.foldl_cons, hq, Option.some_bind', Option.map_some']
    rw [ih (a + if p.2 = q.correctAnswer then 1 else 0) hrest]
    simp only [specScore, List.filter_cons, hq]
    by_cases hc : p.2 = q.correctAnswer
    · simp [hc, Nat.add_comm, Nat.add_assoc, Nat.add_left_comm]
    · simp [hc]

lemma score_eq_specScore (m : List (Nat × Nat)) (order : List MCQItem)
    (h : ∀ p ∈ m, p.1 < order.length) :
    score m order = some (specScore m order) := by
  have := score_foldl order m 0 h
  simpa [score] using this

/-- C1: the Scoring Evaluator computes `score` as the count of answered
positions whose stored option index equals the correct-answer index of
the question at that position, `attempted` as the count of positions
with a non-absent answer, and `canSubmit` iff
`attempted >= min(50, |order|)`; for a 30-question set `canSubmit` holds
exactly from `attempted = 30`, for a 200-question set exactly from
`attempted = 50`.  The answers map models a JS object, so its keys are
unique, and — as claim C10 records — the score reduce is only defined
when every key is in bounds. -/
theorem mcq_C1 (s : MCQState)
    (hnd : (s.mcqState.map Prod.fst).Nodup)
    (hbound : ∀ p ∈ s.mcqState, p.1 < s.localMcqData.length) :
    score s.mcqState s.localMcqData = some (specScore s.mcqState s.localMcqData)
    ∧ (∀ k, k ∈ answeredSet s.mcqState ↔ (lookupA k s.mcqState).isSome = true)
    ∧ attemptedCount s.mcqState = (answeredSet s.mcqState).card
    ∧ (canSubmit s.mcqState s.localMcqData = true ↔
        attemptedCount s.mcqState ≥ min 50 s.localMcqData.length)
    ∧ (s.localMcqData.length = 30 →
        (canSubmit s.mcqState s.localMcqData = true ↔ attemptedCount s.mcqState ≥ 30))
    ∧ (s.localMcqData.length = 200 →
        (canSubmit s.mcqState s.localMcqData = true ↔ attemptedCount s.mcqState ≥ 50)) := by
  refine ⟨score_eq_specScore _ _ hbound, ?_, ?_, ?_, ?_, ?_⟩
  · intro k
    rw [lookupA_isSome_iff]
    simp [answeredSet]
  · rw [answeredSet, List.toFinset_card_of_nodup hnd]
    simp [attemptedCount]
  · simp [canSubmit, minRequired]
  · intro h30
    simp [canSubmit, minRequired, h30]
  · intro h200
    simp [canSubmit, minRequired, h200]

/-- Closed witness for `mcq_C1` at a concrete two-question state. -/
theorem mcq_C1_witness :
    score sampleState.mcqState sampleState.localMcqData
      = some (specScore sampleState.mcqState sampleState.localMcqData)
    ∧ (∀ k, k ∈ answeredSet sampleState.mcqState ↔
        (lookupA k sampleState.mcqState).isSome = true)
    ∧ attemptedCount sampleState.mcqState = (answeredSet sampleState.mcqState).card
    ∧ (canSubmit sampleState.mcqState sampleState.localMcqData = true ↔
        attemptedCount sampleState.mcqState ≥ min 50 sampleState.localMcqData.length)
    ∧ (sampleState.localMcqData.length = 30 →
        (canSubmit sampleState.mcqState sampleState.localMcqData = true ↔
          attemptedCount sampleState.mcqState ≥ 30))
    ∧ (sampleState.localMcqData.length = 200 →
        (canSubmit sampleState.mcqState sampleState.localMcqData = true ↔
          attemptedCount sampleState.mcqState ≥ 50)) :=
  mcq_C1 sampleState (by decide) (by decide)

/-- C8: the Batch Paginator with page size 50: page `k` is the
contiguous slice `[k*50, (k+1)*50)` of the order, `hasMore` holds iff
`(batchIndex+1)*50 < |order|`; a 10-question order has a single page
with `hasMore` always false, and a 120-question order has exactly 3
pages with 50 items on page 0 and 20 on page 2. -/
theorem mcq_C8 :
    (∀ (order : List MCQItem) (b : Nat),
        currentBatchData order b = (order.drop (b * 50)).take 50
        ∧ (hasMore order b = true ↔ (b + 1) * 50 < order.length))
    ∧ (∀ order : List MCQItem, order.length = 10 →
        (∀ b, hasMore order b = false)
        ∧ currentBatchData order 0 = order
        ∧ ∀ b, 1 ≤ b → currentBatchData order b = [])
    ∧ (∀ order : List MCQItem, order.length = 120 →
        hasMore order 0 = true ∧ hasMore order 1 = true ∧ hasMore order 2 = false
        ∧ (currentBatchData order 0).length = 50
        ∧ (currentBatchData order 1).length = 50
        ∧ (currentBatchData order 2).length = 20
        ∧ ∀ b, 3 ≤ b → currentBatchData order b = []) := by
  have hslice : ∀ (order : List MCQItem) (b : Nat),
      currentBatchData order b = (order.drop (b * 50)).take 50 := by
    intro order b
    have h50 : (b + 1) * 50 - b * 50 = 50 := by omega
    simp only [currentBatchData, jsSlice, BATCH_SIZE]
    rw [h50]
  have hlen : ∀ (order : List MCQItem) (b : Nat),
      (currentBatchData order b).length = min 50 (order.length - b * 50) := by
    intro order b
    rw [hslice]
    simp [List.length_take, List.length_drop]
  refine ⟨fun order b => ⟨hslice order b, by simp [hasMore, BATCH_SIZE]⟩, ?_, ?_⟩
  · intro order h10
    refine ⟨?_, ?_, ?_⟩
    · intro b
      simp only [hasMore, BATCH_SIZE, h10, decide_eq_false_iff_not]
      omega
    · rw [hslice]
      simp only [Nat.zero_mul, List.drop_zero]
      exact List.take_of_length_le (by omega)
    · intro b hb
      rw [hslice]
      have : order.drop (b * 50) = [] := List.drop_eq_nil_of_le (by omega)
      simp [this]
  · intro order h120
    refine ⟨?_, ?_, ?_, ?_, ?_, ?_, ?_⟩
    · simp [hasMore, BATCH_SIZE, h120]
    · simp [hasMore, BATCH_SIZE, h120]
    · simp [hasMore, BATCH_SIZE, h120]
    · rw [hlen, h120]; decide
    · rw [hlen, h120]; decide
    · rw [hlen, h120]; decide
    · intro b hb
      rw [hslice]
      have hd : order.drop (b * 50) = [] := List.drop_eq_nil_of_le (by omega)
      simp [hd]

lemma insertRand_perm (r : Nat → Bool) (a : MCQItem) :
    ∀ (l : List MCQItem) (k : Nat), List.Perm (insertRand r a k l) (a :: l) := by
  intro l
  induction l with
  | nil => intro k; simp [insertRand]
  | cons x xs ih =>
    intro k
    by_cases h : r k
    · simp [insertRand, h]
    · simp only [insertRand, h, if_neg, Bool.false_eq_true, not_false_iff]
      exact ((ih (k + 1)).cons x).trans (List.Perm.swap a x xs)

lemma sortRand_perm (r : Nat → Nat → Bool) :
    ∀ l : List MCQItem, List.Perm (sortRand r l) l := by
  intro l
  induction l with
  | nil => simp [sortRand]
  | cons x xs ih =>
    simp only [sortRand]
    exact (insertRand_perm (r xs.length) x (sortRand r xs) 0).trans (ih.cons x)

lemma getStore_removeStore (k : String) (st : Store) :
    getStore k (removeStore k st) = none := by
  induction st with
  | nil => rfl
  | cons p rest ih =>
    obtain ⟨k', v⟩ := p
    by_cases h : k' = k
    · simp only [removeStore, List.filter_cons, h] at *
      simpa using ih
    · simp only [removeStore, List.filter_cons] at *
      simp [h, getStore, ih]

lemma stepOp_showResults (op : SessionOp) (s : MCQState) :
    (stepOp op s).showResults = s.showResults := by
  cases op with
  | answer idx oIdx =>
    show (answerOp idx oIdx s).showResults = s.showResults
    unfold answerOp
    split <;> rfl
  | next =>
    show (navNext s).showResults = s.showResults
    unfold navNext
    split <;> rfl
  | prev =>
    show (navPrev s).showResults = s.showResults
    unfold navPrev
    split <;> rfl
  | openSubmitModal => rfl
  | cancelSubmitModal => rfl
  | confirmSubmitOp => rfl

lemma runOps_showResults (ops : List SessionOp) (s : MCQState)
    (h : s.showResults = true) : (runOps ops s).showResults = true := by
  induction ops generalizing s with
  | nil => simpa [runOps] using h
  | cons op rest ih =>
    have hstep : runOps (op :: rest) s = runOps rest (stepOp op s) := rfl
    rw [hstep]
    exact ih (stepOp op s) ((stepOp_showResults op s).trans h)

/-- Closed witness for `mcq_C8` at concrete 10- and 120-question orders. -/
theorem mcq_C8_witness :
    (currentBatchData (List.replicate 10 q0) 0
        = ((List.replicate 10 q0).drop (0 * 50)).take 50
      ∧ (hasMore (List.replicate 10 q0) 0 = true ↔
          (0 + 1) * 50 < (List.replicate 10 q0).length))
    ∧ ((∀ b, hasMore (List.replicate 10 q0) b = false)
      ∧ currentBatchData (List.replicate 10 q0) 0 = List.replicate 10 q0
      ∧ ∀ b, 1 ≤ b → currentBatchData (List.replicate 10 q0) b = [])
    ∧ (hasMore (List.replicate 120 q0) 0 = true
      ∧ hasMore (List.replicate 120 q0) 1 = true
      ∧ hasMore (List.replicate 120 q0) 2 = false
      ∧ (currentBatchData (List.replicate 120 q0) 0).length = 50
      ∧ (currentBatchData (List.replicate 120 q0) 1).length = 50
      ∧ (currentBatchData (List.replicate 120 q0) 2).length = 20
      ∧ ∀ b, 3 ≤ b → currentBatchData (List.replicate 120 q0) b = []) :=
  ⟨mcq_C8.1 (List.replicate 10 q0) 0,
   mcq_C8.2.1 (List.replicate 10 q0) (by simp),
   mcq_C8.2.2 (List.replicate 120 q0) (by simp)⟩

/-- C2 fails on the code: `handleResume` calls `JSON.parse` with no
try/catch, so a stored value that is not valid JSON throws an uncaught
`SyntaxError` (and a stored `"null"` an uncaught `TypeError` at
`parsed.mcqState`) instead of being treated as absent.  This theorem
evaluates the embedded handler at those failing inputs. -/
theorem mcq_C2_crash :
    handleResume "ch1" malformedStore initialState = Except.error "SyntaxError"
    ∧ handleResume "ch1" [(progressKey "ch1", StoredVal.jsonNull)] initialState
        = Except.error "TypeError" :=
  ⟨rfl, rfl⟩

/-- C3 as stated is false at this concrete Active session: after
`handleConfirmSubmit` the state's mode is still `Active`, not
`Submitted` — the handler never sets `showResults`. -/
theorem mcq_C3_counterexample :
    modeOf (handleConfirmSubmit true "ch1" 1 sampleState badStore).1
      ≠ SessionMode.Submitted := by decide

/-- C3 amended: `ConfirmSubmit` clears the persisted progress record and
emits exactly one completion event carrying the score, the answers map,
the session order and the elapsed seconds; it does not itself transition
the session to `Submitted` — its only state change is closing the
confirmation modal (the Submitted/Analysis presentation is reached via
the host re-initializing with historical answers).  `sc` is the score
value the enclosing render computed, which the handler closes over. -/
theorem mcq_C3_amended (cid : String) (sc : Nat) (s : MCQState) (store : Store)
    (_hscore : score s.mcqState s.localMcqData = some sc) :
    getStore (progressKey cid) (handleConfirmSubmit true cid sc s store).2.1 = none
    ∧ (handleConfirmSubmit true cid sc s store).2.2
        = [{ score := sc
             answers := s.mcqState
             order := s.localMcqData
             elapsedSeconds := s.sessionTime }]
    ∧ (handleConfirmSubmit true cid sc s store).1 = { s with showSubmitModal := false } :=
  ⟨getStore_removeStore _ _, rfl, rfl⟩

/-- Closed witness for `mcq_C3_amended` at a concrete session. -/
theorem mcq_C3_witness :
    getStore (progressKey "ch1") (handleConfirmSubmit true "ch1" 1 sampleState badStore).2.1 = none
    ∧ (handleConfirmSubmit true "ch1" 1 sampleState badStore).2.2
        = [{ score := 1
             answers := sampleState.mcqState
             order := sampleState.localMcqData
             elapsedSeconds := sampleState.sessionTime }]
    ∧ (handleConfirmSubmit true "ch1" 1 sampleState badStore).1
        = { sampleState with showSubmitModal := false } :=
  mcq_C3_amended "ch1" 1 sampleState badStore (by decide)

/-- C4: once a position holds an answer, any further Answer operation on
that position leaves the state unchanged, and Answer is likewise a no-op
whenever the mode is not `Active`. -/
theorem mcq_C4 (s : MCQState) (idx oIdx : Nat) :
    ((lookupA idx s.mcqState).isSome = true → answerOp idx oIdx s = s)
    ∧ (modeOf s ≠ SessionMode.Active → answerOp idx oIdx s = s) := by
  constructor
  · intro h
    simp [answerOp, isAnswered, h]
  · intro h
    by_cases hr : s.showResumePrompt
    · simp [answerOp, hr]
    · by_cases hs : s.showResults
      · simp [answerOp, hs]
      · exact absurd (by simp [modeOf, hr, hs]) h

/-- Closed witness for `mcq_C4`: re-answering an answered position, and
answering in Submitted mode, both leave the state unchanged. -/
theorem mcq_C4_witness :
    answerOp 0 3 sampleState = sampleState
    ∧ answerOp 5 0 submittedState = submittedState :=
  ⟨(mcq_C4 sampleState 0 3).1 (by decide),
   (mcq_C4 submittedState 5 0).2 (by decide)⟩

/-- C5 fails on the code: an empty question set passes the MCQ branch
guard (`content.mcqData` is a truthiness test and a JS array is truthy
even when empty), so the session initializes with zero questions, in
`Active` mode, with `canSubmit` already true at zero attempts.  This
theorem evaluates the embedded guard and initialization at the empty
set. -/
theorem mcq_C5_empty :
    mcqBranch "MCQ_SIMPLE" (some []) = true
    ∧ modeOf (initSession none [] "ch1" [] (fun _ _ => true)) = SessionMode.Active
    ∧ attemptedCount (initSession none [] "ch1" [] (fun _ _ => true)).mcqState = 0
    ∧ canSubmit (initSession none [] "ch1" [] (fun _ _ => true)).mcqState
        (initSession none [] "ch1" [] (fun _ _ => true)).localMcqData = true := by
  refine ⟨rfl, by decide, rfl, by decide⟩

/-- C6: in Active mode forward batch navigation from a page with an
unanswered position is rejected; it succeeds (given a further page
exists) once every position of the current page is answered or once the
mode is Submitted; backward navigation is available exactly when the
batch index is positive, in every mode. -/
theorem mcq_C6 (s : MCQState) :
    (modeOf s = SessionMode.Active → pageUnanswered s = true → navNext s = s)
    ∧ (hasMore s.localMcqData s.batchIndex = true → pageUnanswered s = false →
        navNext s = { s with batchIndex := s.batchIndex + 1 })
    ∧ (hasMore s.localMcqData s.batchIndex = true → s.showResults = true →
        navNext s = { s with batchIndex := s.batchIndex + 1 })
    ∧ (0 < s.batchIndex → navPrev s = { s with batchIndex := s.batchIndex - 1 }) := by
  refine ⟨?_, ?_, ?_, ?_⟩
  · intro hm hpu
    have hr : s.showResumePrompt = false := by
      by_contra hc
      have ht : s.showResumePrompt = true := by
        revert hc; cases s.showResumePrompt <;> simp
      simp [modeOf, ht] at hm
    have hs : s.showResults = false := by
      by_contra hc
      have ht : s.showResults = true := by
        revert hc; cases s.showResults <;> simp
      simp [modeOf, hr, ht] at hm
    simp [navNext, hpu, hs]
  · intro hh hpu
    simp [navNext, hh, hpu]
  · intro hh hs
    simp [navNext, hh, hs]
  · intro h
    simp [navPrev, h]

/-- Closed witness for `mcq_C6`: rejected forward navigation from a
partially answered page, successful forward navigation from a fully
answered page and from a Submitted session, and backward navigation from
page 1. -/
theorem mcq_C6_witness :
    navNext bigStatePartial = bigStatePartial
    ∧ navNext bigState = { bigState with batchIndex := bigState.batchIndex + 1 }
    ∧ navNext bigSubmitted = { bigSubmitted with batchIndex := bigSubmitted.batchIndex + 1 }
    ∧ navPrev page1State = { page1State with batchIndex := page1State.batchIndex - 1 } :=
  ⟨(mcq_C6 bigStatePartial).1 (by decide) (by decide),
   (mcq_C6 bigState).2.1 (by decide) (by decide),
   (mcq_C6 bigSubmitted).2.2.1 (by decide) (by decide),
   (mcq_C6 page1State).2.2.2 (by decide)⟩

/-- C7: Recreate, confirmed from an Active or Submitted session, always
yields a state with zero attempted answers, batch index 0, a cleared
stored record, and a session order that is a permutation of the original
question set; the resulting state is Active. -/
theorem mcq_C7 (rnd : Nat → Nat → Bool) (cid : String)
    (mcqData : Option (List MCQItem)) (s : MCQState) (store : Store)
    (hm : modeOf s = SessionMode.Active ∨ modeOf s = SessionMode.Submitted) :
    attemptedCount (handleRecreate rnd cid mcqData s store).1.mcqState = 0
    ∧ (handleRecreate rnd cid mcqData s store).1.batchIndex = 0
    ∧ getStore (progressKey cid) (handleRecreate rnd cid mcqData s store).2 = none
    ∧ List.Perm (handleRecreate rnd cid mcqData s store).1.localMcqData (mcqData.getD [])
    ∧ modeOf (handleRecreate rnd cid mcqData s store).1 = SessionMode.Active := by
  have hsrp : s.showResumePrompt = false := by
    by_contra hc
    have ht : s.showResumePrompt = true := by
      revert hc; cases s.showResumePrompt <;> simp
    rcases hm with h | h <;> simp [modeOf, ht] at h
  refine ⟨rfl, rfl, getStore_removeStore _ _, sortRand_perm rnd (mcqData.getD []), ?_⟩
  simp [handleRecreate, modeOf, hsrp]

/-- Closed witness for `mcq_C7` at a concrete Submitted session. -/
theorem mcq_C7_witness :
    attemptedCount
        (handleRecreate (fun _ _ => true) "ch1" (some sampleOrder) submittedState badStore).1.mcqState = 0
    ∧ (handleRecreate (fun _ _ => true) "ch1" (some sampleOrder) submittedState badStore).1.batchIndex = 0
    ∧ getStore (progressKey "ch1")
        (handleRecreate (fun _ _ => true) "ch1" (some sampleOrder) submittedState badStore).2 = none
    ∧ List.Perm
        (handleRecreate (fun _ _ => true) "ch1" (some sampleOrder) submittedState badStore).1.localMcqData
        ((some sampleOrder).getD [])
    ∧ modeOf
        (handleRecreate (fun _ _ => true) "ch1" (some sampleOrder) submittedState badStore).1
        = SessionMode.Active :=
  mcq_C7 (fun _ _ => true) "ch1" (some sampleOrder) submittedState badStore (by decide)

/-- C9: a progress record is written only while the session is
unsubmitted and has at least one answer, and once a session has entered
Submitted mode, no sequence of within-session operations can ever reach
a state whose auto-save effect writes a record. -/
theorem mcq_C9 (s : MCQState) :
    (∀ r, autoSave s = some r → s.showResults = false ∧ s.mcqState ≠ [])
    ∧ (s.showResults = true → ∀ ops, autoSave (runOps ops s) = none) := by
  constructor
  · intro r h
    unfold autoSave at h
    split_ifs at h with hc
    exact hc
  · intro hs ops
    have hres : (runOps ops s).showResults = true := runOps_showResults ops s hs
    simp [autoSave, hres]

/-- Closed witness for `mcq_C9`: the auto-save of an answered Active
state is a write, and a Submitted session stays write-free under
further operations. -/
theorem mcq_C9_witness :
    (sampleState.showResults = false ∧ sampleState.mcqState ≠ [])
    ∧ autoSave (runOps [SessionOp.answer 0 1, SessionOp.next] submittedState) = none :=
  ⟨(mcq_C9 sampleState).1
      { mcqState := some sampleAnswers
        batchIndex := some 0
        localMcqData := some sampleOrder }
      (by decide),
   (mcq_C9 submittedState).2 (by decide) [SessionOp.answer 0 1, SessionOp.next]⟩

/-- C10: the score reduce is well-defined whenever every key of the
answers map is a valid index into the session order, and a restored
record whose answers map holds a key at or beyond the restored order's
length yields a state where the computation is undefined (the unguarded
`localMcqData[qIdx].correctAnswer` access throws). -/
theorem mcq_C10 :
    (∀ (m : List (Nat × Nat)) (order : List MCQItem),
        (∀ p ∈ m, p.1 < order.length) → (score m order).isSome = true)
    ∧ (∃ s', handleResume "ch1" badStore initialState = Except.ok s'
        ∧ (∃ k ∈ s'.mcqState.map Prod.fst, s'.localMcqData.length ≤ k)
        ∧ score s'.mcqState s'.localMcqData = none) := by
  constructor
  · intro m order h
    rw [score_eq_specScore m order h]
    rfl
  · exact ⟨resumedBad, rfl, by decide, by decide⟩

/-- Closed witness for `mcq_C10` at a concrete in-bounds answers map. -/
theorem mcq_C10_witness : (score sampleAnswers sampleOrder).isSome = true :=
  mcq_C10.1 sampleAnswers sampleOrder (by decide)

end LessonView
